import Mathlib

/-!
Verification of the bonsai build tool's asset pipeline against its
natural-language specification.  The Rust sources (`src/packer.rs`,
`src/build.rs`, `src/sokol.rs`) are shallowly embedded as executable Lean
definitions: filesystem timestamps become `Nat` values supplied as inputs,
fallible operations return `Except CustomError`, images become a dimension
pair with a pixel-lookup function, and the directory walk becomes a list of
entries.  Definitions keep the source's names.
-/

namespace Bonsai

/-- Error taxonomy from `src/error.rs` (`CustomError`).  The wrapped foreign
error types (`git2::Error`, `std::io::Error`, `TomlError`) are carried as
their display strings. -/
inductive CustomError where
  | gitError (msg : String)
  | ioError (msg : String)
  | tomlError (msg : String)
  | validationError (msg : String)
  | buildError (msg : String)
  | processError (msg : String)
deriving DecidableEq, Repr

/-! ## Paths and file names

A filesystem path is embedded as its list of components (`PathBuf`
iterates over components; Rust's `PathBuf` ordering is the lexicographic
ordering of the component sequence). -/

/-- A path as its list of components. -/
abbrev FsPath := List String

/-- One entry produced by the recursive directory walk (`walkdir::WalkDir`):
its path, whether it is a directory, and its last-modified time. -/
structure DirEntry where
  path : FsPath
  isDir : Bool
  mtime : Nat
deriving DecidableEq, Repr

/-- `Path::file_name`: the last path component (empty for an empty path). -/
def file_name (p : FsPath) : String := p.getLast?.getD ""

/-- Indices of `.` characters that do not sit at position 0.  Rust's
`file_stem`/`extension` ignore a leading dot (hidden files). -/
def dotIdxs (cs : List Char) : List Nat :=
  (List.range cs.length).filter (fun i => decide (0 < i) && (cs.getD i ' ' == '.'))

/-- `Path::file_stem` on a file name: the portion before the final
non-leading `.`, or the whole name when there is none. -/
def file_stem (name : String) : String :=
  match (dotIdxs name.toList).getLast? with
  | some i => ⟨name.toList.take i⟩
  | none => name

/-- `Path::extension` on a file name: the portion after the final
non-leading `.`, or `none` when there is none. -/
def ext_of (name : String) : Option String :=
  match (dotIdxs name.toList).getLast? with
  | some i => some ⟨name.toList.drop (i + 1)⟩
  | none => none

/-! ## StalenessGate (`src/build.rs:659` `should_skip`,
`src/packer.rs:241` `should_repack`)

Timestamps are embedded as `Nat` (Rust `SystemTime` is totally ordered
here); `out` is `none` when the output file does not exist, `some t` when
it exists with modified-time `t`.  The source propagates metadata-read
I/O errors; the embedding takes the successfully read timestamps as
inputs. -/

/-- `should_skip(src, out)` from `src/build.rs`: skip iff the output exists
and `src_time <= out_time`. -/
def should_skip (src_time : Nat) (out : Option Nat) : Bool :=
  match out with
  | none => false
  | some out_time => src_time ≤ out_time

/-- Name of the atlas output file (`ATLAS_NAME` in `src/packer.rs`). -/
def ATLAS_NAME : String := "atlas.png"

/-- The per-entry filter of `should_repack`'s walk: not a directory, not the
atlas output itself, extension `png`, and newer than the target. -/
def repack_entry_newer (target_time : Nat) (e : DirEntry) : Bool :=
  !e.isDir && !(file_name e.path == ATLAS_NAME) &&
    (ext_of (file_name e.path) == some "png") && decide (target_time < e.mtime)

/-- `should_repack(source_dir, target_file)` from `src/packer.rs`: repack iff
the target is absent, or (the source dir exists and) some `*.png` file other
than the atlas itself is strictly newer than the target. -/
def should_repack (entries : List DirEntry) (srcDirExists : Bool)
    (target : Option Nat) : Bool :=
  match target with
  | none => true
  | some target_time =>
    if !srcDirExists then false
    else entries.any (repack_entry_newer target_time)

/-- Staleness as the spec phrases it: the gate reports stale (rebuild
required) exactly when `should_skip` is `false`. -/
def is_stale (src_time : Nat) (out : Option Nat) : Bool :=
  !should_skip src_time out

/-! ## Images (`image::RgbaImage`)

An RGBA image is embedded as its dimensions plus a pixel-lookup function
(the packed RGBA value as a `Nat`).  The lookup is only meaningful inside
`[0,w) x [0,h)`; Rust's `get_pixel` panics out of bounds, and every access
performed by the embedded code stays in bounds under the stated
hypotheses. -/

structure Img where
  w : Nat
  h : Nat
  pix : Nat → Nat → Nat

/-- `image::imageops::crop_imm(img, cx, cy, cw, ch).to_image()`: the crop
rectangle is clipped to the image bounds, and pixel `(x, y)` of the result
is pixel `(cx + x, cy + y)` of the original. -/
def crop_imm (img : Img) (cx cy cw ch : Nat) : Img :=
  { w := min cw (img.w - cx)
    h := min ch (img.h - cy)
    pix := fun x y => img.pix (cx + x) (cy + y) }

/-- `image::imageops::flip_vertical_in_place`: row `y` becomes row
`h - 1 - y`. -/
def flip_vertical (img : Img) : Img :=
  { w := img.w, h := img.h, pix := fun x y => img.pix x (img.h - 1 - y) }

/-- `extrude_tile` from `src/packer.rs:172`: a `(w+2, h+2)` image holding the
original at offset `(1,1)`, with the four edge rows/columns replicated one
pixel outward and the four corners copied from the original corners.  The
source performs one `overlay` and a sequence of `put_pixel` writes to
pairwise disjoint positions; the embedding gives each written position its
written value by case split (positions beyond `(w+2, h+2)` are out of
bounds and meaningless). -/
def extrude_tile (img : Img) : Img :=
  { w := img.w + 2
    h := img.h + 2
    pix := fun px py =>
      if px = 0 ∧ py = 0 then img.pix 0 0
      else if px = img.w + 1 ∧ py = 0 then img.pix (img.w - 1) 0
      else if px = 0 ∧ py = img.h + 1 then img.pix 0 (img.h - 1)
      else if px = img.w + 1 ∧ py = img.h + 1 then img.pix (img.w - 1) (img.h - 1)
      else if py = 0 then img.pix (px - 1) 0
      else if py = img.h + 1 then img.pix (px - 1) (img.h - 1)
      else if px = 0 then img.pix 0 (py - 1)
      else if px = img.w + 1 then img.pix (img.w - 1) (py - 1)
      else img.pix (px - 1) (py - 1) }

/-! ## Grid-spec parsing (`src/packer.rs:200` `parse_grid_size_from_name`) -/

/-- Rust `str::split(c)`: splits at every occurrence of `c`, preserving
empty fragments; always yields at least one fragment. -/
def split_char (c : Char) : List Char → List (List Char)
  | [] => [[]]
  | a :: rest =>
    match split_char c rest with
    | [] => [[]]
    | g :: gs => if a = c then [] :: g :: gs else (a :: g) :: gs

/-- Rust `str::split_once(c)`: split at the first occurrence of `c`. -/
def split_once (c : Char) : List Char → Option (List Char × List Char)
  | [] => none
  | a :: rest =>
    if a = c then some ([], rest)
    else (split_once c rest).map (fun p => (a :: p.1, p.2))

/-- Digit accumulation for `u32::from_str`. -/
def parse_digits (cs : List Char) : Option Nat :=
  cs.foldl
    (fun acc c => acc.bind (fun n => if c.isDigit then some (n * 10 + (c.toNat - 48)) else none))
    (some 0)

/-- Rust `str::parse::<u32>()`: an optional leading `+`, then a non-empty
digit string whose value fits in 32 bits. -/
def parse_u32 (cs : List Char) : Option Nat :=
  let body := match cs with
    | '+' :: rest => rest
    | other => other
  if body = [] then none
  else match parse_digits body with
    | none => none
    | some n => if n < 2 ^ 32 then some n else none

/-- `parse_grid_size_from_name` from `src/packer.rs`: take the fragment
after the last `_`, split it at the first `x`, and parse both halves as
`u32`. -/
def parse_grid_size_from_name (name : String) : Option (Nat × Nat) :=
  match (split_char '_' name.toList).getLast? with
  | none => none
  | some last =>
    match split_once 'x' last with
    | none => none
    | some (wcs, hcs) =>
      match parse_u32 wcs, parse_u32 hcs with
      | some width, some height => some (width, height)
      | _, _ => none

/-- `DEFAULT_TILE_SIZE` from `src/packer.rs`. -/
def DEFAULT_TILE_SIZE : Nat := 16

/-! ## Skyline bin packer

Modelled from the spec: the skyline 2D bin packer used by `pack_atlas`
comes from the external `texture_packer` crate
(`TexturePacker::new_skyline`), whose source is not part of this
repository.  Per spec section 4.2 step 4 and the glossary, it tracks a
horizontal skyline of occupied heights, places each rectangle (no rotation)
at the lowest — then leftmost — skyline position where it fits inside the
fixed 2048 x 2048 bound, with fixed inter-sprite padding (`texture_padding
= 2`) and border padding (`border_padding = 2`) as configured at
`src/packer.rs:55`; failure to fit is a fatal `BuildError` ("Atlas full"). -/

/-- `max_width`/`max_height` from the `TexturePackerConfig` at
`src/packer.rs:55`. -/
def MAX_W : Nat := 2048

def MAX_H : Nat := 2048

/-- `border_padding` from the config. -/
def BORDER : Nat := 2

/-- `texture_padding` from the config. -/
def PAD : Nat := 2

/-- Width usable by skyline placements (inside the border on both sides). -/
def USABLE_W : Nat := MAX_W - 2 * BORDER

def USABLE_H : Nat := MAX_H - 2 * BORDER

/-- One skyline segment: starting column, height, width. -/
structure Seg where
  x : Nat
  y : Nat
  w : Nat
deriving DecidableEq, Repr

/-- Does segment `s` cover column `px`? -/
def segCovers (s : Seg) (px : Nat) : Bool :=
  decide (s.x ≤ px) && decide (px < s.x + s.w)

/-- Skyline height at column `px`: the tallest segment covering it. -/
def skyAt (sl : List Seg) (px : Nat) : Nat :=
  sl.foldr (fun s m => if segCovers s px then max s.y m else m) 0

/-- Tallest segment height over the column span `[x, x + w)`. -/
def spanMax (sl : List Seg) (x w : Nat) : Nat :=
  sl.foldr
    (fun s m => if decide (s.x < x + w) && decide (x < s.x + s.w) then max s.y m else m) 0

/-- Can a `w x h` rectangle sit at column `x`?  Its bottom is the skyline
maximum over its span; it must fit inside the usable area. -/
def tryFit (sl : List Seg) (w h x : Nat) : Option (Nat × Nat) :=
  if x + w ≤ USABLE_W then
    if spanMax sl x w + h ≤ USABLE_H then some (x, spanMax sl x w) else none
  else none

/-- Position preference: lower bottom first, then further left. -/
def betterPos (a b : Nat × Nat) : Bool :=
  decide (a.2 < b.2) || (a.2 == b.2 && decide (a.1 < b.1))

/-- Combine a candidate with the best of the remaining candidates,
preferring the better position. -/
def mergePos : Option (Nat × Nat) → Option (Nat × Nat) → Option (Nat × Nat)
  | none, r => r
  | some c, none => some c
  | some c, some b => if betterPos b c then some b else some c

/-- Scan the candidate segment starts for the best position. -/
def findPosGo (sl : List Seg) (w h : Nat) : List Seg → Option (Nat × Nat)
  | [] => none
  | s :: rest => mergePos (tryFit sl w h s.x) (findPosGo sl w h rest)

/-- Best placement for a `w x h` rectangle: candidates are the starts of the
current skyline segments. -/
def findPos (sl : List Seg) (w h : Nat) : Option (Nat × Nat) :=
  findPosGo sl w h sl

/-- The parts of segment `s` outside the column span `[x, x + w)`. -/
def clipSeg (x w : Nat) (s : Seg) : List Seg :=
  (if s.x < x then [⟨s.x, s.y, min s.w (x - s.x)⟩] else []) ++
    (if x + w < s.x + s.w then
      [⟨max s.x (x + w), s.y, s.x + s.w - max s.x (x + w)⟩] else [])

/-- Raise the skyline to `y + h` over `[x, x + w)`, keeping the parts of the
old segments outside the span. -/
def raise (sl : List Seg) (x w y h : Nat) : List Seg :=
  ⟨x, y + h, w⟩ :: sl.flatMap (clipSeg x w)

/-- One packed frame: the sprite key, the placement (in skyline
coordinates, i.e. before the border offset), and the stored image. -/
structure Frame where
  key : String
  x : Nat
  y : Nat
  img : Img

/-- Packer state: current skyline and the frames packed so far. -/
structure PackerSt where
  sky : List Seg
  frames : List Frame

/-- `TexturePacker::new_skyline(config)`: empty frame list, one ground-level
segment spanning the usable width. -/
def packer_new : PackerSt :=
  { sky := [⟨0, 0, USABLE_W⟩], frames := [] }

/-- `packer.pack_own(key, img)`: place the image (expanded by the
inter-sprite padding) at the best skyline position; error when no position
fits ("Atlas full"). -/
def pack_own (st : PackerSt) (key : String) (img : Img) :
    Except CustomError PackerSt :=
  match findPos st.sky (img.w + PAD) (img.h + PAD) with
  | none => .error (.buildError ("Failed to pack " ++ key ++ ". Atlas full?"))
  | some (x, y) =>
    .ok { sky := raise st.sky x (img.w + PAD) y (img.h + PAD)
          frames := st.frames ++ [⟨key, x, y, img⟩] }

/-! ## Image enumeration and processing (`src/packer.rs:75,101`) -/

/-- `images_dir` from `AtlasContext::new` (assets dir joined with
`IMAGES_DIR_NAME`). -/
def IMAGES_DIR : FsPath := ["assets", "images"]

/-- `tilesets_dir` (images dir joined with `TILESETS_DIR_NAME`). -/
def TILESETS_DIR : FsPath := ["assets", "images", "tilesets"]

/-- `Path::starts_with`: component-wise prefix test. -/
def path_starts_with : FsPath → FsPath → Bool
  | _, [] => true
  | [], _ :: _ => false
  | c1 :: r1, c2 :: r2 => c1 == c2 && path_starts_with r1 r2

/-- The filter applied by `get_sorted_image_files` to each walk entry:
skip directories, skip the atlas output itself, keep `*.png`. -/
def get_walk_files (entries : List DirEntry) : List FsPath :=
  entries.filterMap (fun e =>
    if e.isDir then none
    else if file_name e.path == ATLAS_NAME then none
    else if ext_of (file_name e.path) == some "png" then some e.path
    else none)

/-- Rust `PathBuf` ordering as a boolean test: lexicographic over the
component sequence, components compared as strings. -/
def pathLeB : FsPath → FsPath → Bool
  | [], _ => true
  | _ :: _, [] => false
  | c1 :: r1, c2 :: r2 =>
    if c1 < c2 then true
    else if c2 < c1 then false
    else pathLeB r1 r2

/-- The path order as a relation, for `List.insertionSort`. -/
def pathLe (a b : FsPath) : Prop := pathLeB a b = true

instance : DecidableRel pathLe := fun a b =>
  inferInstanceAs (Decidable (pathLeB a b = true))

/-- `get_sorted_image_files` from `src/packer.rs:75`: empty when the
directory is absent, otherwise the filtered walk entries sorted by path.
(The source uses `Vec::sort`, a stable merge sort; over the total
antisymmetric path order any sorting algorithm yields the same list, so the
embedding uses insertion sort.) -/
def get_sorted_image_files (entries : List DirEntry) (dirExists : Bool) :
    List FsPath :=
  if !dirExists then []
  else List.insertionSort pathLe (get_walk_files entries)

/-- The tileset slicing loop of `process_images` (`src/packer.rs:130`):
`cols * rows` tiles in row-major order (`y` outer, `x` inner), each cropped
at `(x*tw, y*th)`, vertically flipped, extruded, and keyed
`"<stem>_<x + y*cols>"`. -/
def slice_tiles (stem : String) (img : Img) (tw th : Nat) :
    List (String × Img) :=
  let cols := img.w / tw
  let rows := img.h / th
  (List.range rows).flatMap (fun y =>
    (List.range cols).map (fun x =>
      (stem ++ "_" ++ toString (x + y * cols),
        extrude_tile (flip_vertical (crop_imm img (x * tw) (y * th) tw th)))))

/-- Pack a list of keyed images in order (the body of the slicing loops). -/
def pack_many : PackerSt → List (String × Img) → Except CustomError PackerSt
  | st, [] => .ok st
  | st, (k, i) :: rest => (pack_own st k i).bind (fun st2 => pack_many st2 rest)

/-- Processing state: the packer plus the `extruded_sprites` key set
(embedded as a list; only membership is consumed). -/
structure ProcSt where
  packer : PackerSt
  extruded : List String

/-- The grid spec used for a tileset stem: the parse of the filename
suffix, or the 16 x 16 default. -/
def grid_of (stem : String) : Nat × Nat :=
  (parse_grid_size_from_name stem).getD (DEFAULT_TILE_SIZE, DEFAULT_TILE_SIZE)

/-- The tileset branch of `process_images` (`src/packer.rs:122`): slice,
flip, extrude and pack every tile, recording each key as extruded.  A zero
tile dimension makes the source's `width / tile_w` panic; the panic is
embedded as a `BuildError`. -/
def pack_tileset (st : ProcSt) (stem : String) (img : Img) :
    Except CustomError ProcSt :=
  if (grid_of stem).1 = 0 ∨ (grid_of stem).2 = 0 then
    .error (.buildError "panic: attempt to divide by zero")
  else
    (pack_many st.packer
        (slice_tiles stem img (grid_of stem).1 (grid_of stem).2)).map
      (fun pk => ⟨pk, st.extruded ++
        (slice_tiles stem img (grid_of stem).1 (grid_of stem).2).map
          (fun t => t.1)⟩)

/-- The flat-sprite branch of `process_images` (`src/packer.rs:157`): flip
the whole image and pack it under the file stem, with no extrusion. -/
def pack_flat (st : ProcSt) (stem : String) (img : Img) :
    Except CustomError ProcSt :=
  (pack_own st.packer stem (flip_vertical img)).map
    (fun pk => ⟨pk, st.extruded⟩)

/-- The per-file body of `process_images` (`src/packer.rs:108`): load the
image (failure is a `ValidationError`), then dispatch on whether the path
lies under the tilesets subtree. -/
def pack_path (fs : FsPath → Option Img) (st : ProcSt) (p : FsPath) :
    Except CustomError ProcSt :=
  match fs p with
  | none => .error (.validationError ("Failed to load " ++ file_name p))
  | some img =>
    if path_starts_with p TILESETS_DIR then
      pack_tileset st (file_stem (file_name p)) img
    else
      pack_flat st (file_stem (file_name p)) img

/-- `process_images` (`src/packer.rs:101`): fold `pack_path` over the sorted
file list, stopping at the first error. -/
def process_images (fs : FsPath → Option Img) :
    ProcSt → List FsPath → Except CustomError ProcSt
  | st, [] => .ok st
  | st, p :: rest => (pack_path fs st p).bind (fun st2 => process_images fs st2 rest)

/-! ## Atlas output -/

/-- A rectangle in atlas pixels. -/
structure Rect where
  x : Nat
  y : Nat
  w : Nat
  h : Nat
deriving DecidableEq, Repr

/-- Spec section 3 `PackedSprite`: key, rect in atlas pixels, original
(pre-extrusion) size, and whether the stored image was extruded. -/
structure PackedSprite where
  key : String
  rect : Rect
  source_w : Nat
  source_h : Nat
  extruded : Bool
deriving DecidableEq, Repr

/-- Spec section 3 `AtlasOutput`: dimensions, pixels, sprite table. -/
structure AtlasOutput where
  width : Nat
  height : Nat
  image : Img
  sprites : List PackedSprite

/-- Rightmost occupied column over all frames (skyline coordinates). -/
def extent_w (frames : List Frame) : Nat :=
  frames.foldr (fun f m => max (f.x + f.img.w) m) 0

/-- Topmost occupied row over all frames (skyline coordinates). -/
def extent_h (frames : List Frame) : Nat :=
  frames.foldr (fun f m => max (f.y + f.img.h) m) 0

/-- Atlas pixels: each frame's stored image drawn at its placement offset by
the border padding; untouched pixels are the zero (transparent) RGBA
value. -/
def render (frames : List Frame) (px py : Nat) : Nat :=
  frames.foldr
    (fun f acc =>
      if BORDER + f.x ≤ px ∧ px < BORDER + f.x + f.img.w ∧
          BORDER + f.y ≤ py ∧ py < BORDER + f.y + f.img.h then
        f.img.pix (px - (BORDER + f.x)) (py - (BORDER + f.y))
      else acc)
    0

/-- Modelled from the spec: `ImageExporter::export` (external
`texture_packer` crate, not in `src/`) flattens the packer into one RGBA
image sized to the packed content plus the border, and the sprite table
records each key's rect and original pre-extrusion size (the sidecar
written by `generate_sprite_metadata` in the repository's `assets.rs`,
which is also not under `src/`): an extruded tile's original size is its
stored size minus the two extruded pixels per axis. -/
def export_atlas (st : ProcSt) : AtlasOutput :=
  { width := BORDER + extent_w st.packer.frames + BORDER
    height := BORDER + extent_h st.packer.frames + BORDER
    image := ⟨BORDER + extent_w st.packer.frames + BORDER,
      BORDER + extent_h st.packer.frames + BORDER, render st.packer.frames⟩
    sprites := st.packer.frames.map (fun f =>
      { key := f.key
        rect := ⟨BORDER + f.x, BORDER + f.y, f.img.w, f.img.h⟩
        source_w := if st.extruded.contains f.key then f.img.w - 2 else f.img.w
        source_h := if st.extruded.contains f.key then f.img.h - 2 else f.img.h
        extruded := st.extruded.contains f.key }) }

/-- The packing core of `pack_atlas`: process every file into a fresh
skyline packer, then export. -/
def pack_images (fs : FsPath → Option Img) (paths : List FsPath) :
    Except CustomError AtlasOutput :=
  (process_images fs ⟨packer_new, []⟩ paths).map export_atlas

/-- Enumerate, sort, process, export: the repack path of `pack_atlas`. -/
def pack_run (fs : FsPath → Option Img) (entries : List DirEntry)
    (dirExists : Bool) : Except CustomError AtlasOutput :=
  pack_images fs (get_sorted_image_files entries dirExists)

/-! ## `pack_atlas` and its disk effect (`src/packer.rs:43`) -/

/-- The slice of the filesystem `pack_atlas` writes: the atlas image file
(modified-time and content) and the sprite-metadata sidecar. -/
structure Disk where
  atlas : Option (Nat × AtlasOutput)
  metadata : Option (List (String × Rect × Nat × Nat))

/-- Modelled from the spec: `generate_sprite_metadata` lives in the
repository's `assets.rs`, which is not under `src/`; per spec sections 3
and 4.2 it exports the key to rect and original-size mapping. -/
def generate_sprite_metadata (out : AtlasOutput) :
    List (String × Rect × Nat × Nat) :=
  out.sprites.map (fun s => (s.key, s.rect, s.source_w, s.source_h))

/-- `pack_atlas` from `src/packer.rs:43`, as a function from the prior disk
state to the result and the new disk state.  Note the source's guard is
literally `!should_repack(..)? && ui.verbose`: the early return happens
only when the atlas is fresh AND verbose logging is on.  On the repack
path, the atlas file and sidecar are written only after every image has
been processed successfully; a processing error leaves the disk
untouched. -/
def pack_atlas (verbose : Bool) (entries : List DirEntry)
    (imagesDirExists : Bool) (fs : FsPath → Option Img) (now : Nat)
    (disk : Disk) : Except CustomError Unit × Disk :=
  if !(should_repack entries imagesDirExists (disk.atlas.map (·.1))) && verbose then
    (.ok (), disk)
  else
    match pack_run fs entries imagesDirExists with
    | .error e => (.error e, disk)
    | .ok out =>
      (.ok (), { atlas := some (now, out)
                 metadata := some (generate_sprite_metadata out) })

/-! ## Native build matrix (`src/sokol.rs`) -/

/-- `SOKOL_MODULES` from `src/sokol.rs:11`. -/
def SOKOL_MODULES : List String :=
  ["sokol_log", "sokol_gfx", "sokol_app", "sokol_glue", "sokol_time",
    "sokol_audio", "sokol_debugtext", "sokol_shape", "sokol_gl"]

/-- The backend list per OS from `compile_sokol` (`src/sokol.rs:86`):
`(name, define, suffix)` triples; `none` for an unsupported OS (a
`BuildError` in the source). -/
def sokol_backends (os : String) : Option (List (String × String × String)) :=
  if os == "windows" then
    some [("D3D11", "SOKOL_D3D11", "d3d11"), ("GL", "SOKOL_GLCORE", "gl")]
  else if os == "macos" then
    some [("Metal", "SOKOL_METAL", "metal"), ("GL", "SOKOL_GLCORE", "gl")]
  else if os == "linux" then
    some [("GL", "SOKOL_GLCORE", "gl")]
  else none

/-- `module.strip_prefix("sokol_").unwrap_or(module)`: the module's output
subdirectory name. -/
def module_folder (m : String) : String :=
  match m.toList with
  | 's' :: 'o' :: 'k' :: 'o' :: 'l' :: '_' :: rest => ⟨rest⟩
  | _ => m

/-- The `debug`/`release` artifact suffix. -/
def profile_suffix (is_debug : Bool) : String :=
  if is_debug then "debug" else "release"

/-- The static-library path written for one task, relative to the sokol lib
dir: `build_windows` writes `<folder>/<module>_windows_<arch>_<suffix>_
<profile>.lib` (`src/sokol.rs:301`), `build_unix` writes
`<folder>/<module>_<os>_<arch>_<suffix>_<profile>.a` (`src/sokol.rs:362`). -/
def sokol_artifact (os arch m suffix prof : String) : String :=
  if os == "windows" then
    module_folder m ++ "/" ++ m ++ "_windows_" ++ arch ++ "_" ++ suffix ++
      "_" ++ prof ++ ".lib"
  else
    module_folder m ++ "/" ++ m ++ "_" ++ os ++ "_" ++ arch ++ "_" ++
      suffix ++ "_" ++ prof ++ ".a"

/-- The desktop task matrix of `compile_sokol` (`src/sokol.rs:130`): when
the coarse skip applies (`!clean` and the marker library exists) no tasks
run; otherwise one `(module, define, suffix)` task per module x backend
pair, modules outer, backends inner. -/
def compile_sokol_tasks (os : String) (clean markerExists : Bool) :
    Except CustomError (List (String × String × String)) :=
  match sokol_backends os with
  | none => .error (.buildError ("Unsupported OS: " ++ os))
  | some backends =>
    if !clean && markerExists then .ok []
    else .ok (SOKOL_MODULES.flatMap (fun m =>
      backends.map (fun b => (m, b.2.1, b.2.2))))

/-! ## Utility-script runner (`src/build.rs:483` `visit_utility_dir`) -/

/-- The observable outcome of spawning one external command. -/
inductive RunOutcome where
  | spawnFail
  | exited (code : Nat)
deriving DecidableEq, Repr

/-- `run_with_prefix` (`src/build.rs:596`) as a function of the process
outcome: spawn failure is a `ProcessError`, a non-zero exit is a
`BuildError`, exit 0 succeeds. -/
def run_with_prefix (cmd : String) (o : RunOutcome) : Except CustomError Unit :=
  match o with
  | .spawnFail => .error (.processError ("Failed to start " ++ cmd))
  | .exited 0 => .ok ()
  | .exited _ => .error (.buildError (cmd ++ " failed"))

/-- The `.py` branch of `visit_utility_dir` (`src/build.rs:498`):
`run_with_prefix("python3", ..).or_else(|_| run_with_prefix("python", ..))`.
Returns the final result together with the list of interpreters invoked,
in order. -/
def run_py_script (python3 python : RunOutcome) :
    Except CustomError Unit × List String :=
  match run_with_prefix "python3" python3 with
  | .ok _ => (.ok (), ["python3"])
  | .error _ => ( run_with_prefix "python" python, ["python3", "python"])

/-! ## The other external-tool invocation sites of the pipeline

Each remaining operation that spawns external tools, modelled with the
list of commands it attempts, in order.  These are every spawn site in
`src/build.rs` and `src/sokol.rs` besides the `.py` fallback above: none
of them re-attempts a command after a failure. -/

/-- The invocation trace of one `run_with_prefix` call (`src/build.rs:596`):
a single spawn attempt of its command.  This one call site covers the
shader compiles (`src/build.rs:140`), the odin project build
(`src/build.rs:250`) and odin utility scripts (`src/build.rs:525`). -/
def run_with_prefix_run (cmd : String) (o : RunOutcome) :
    Except CustomError Unit × List String :=
  ( run_with_prefix cmd o, [cmd])

/-- `run_rust_script` (`src/build.rs:541`): compile the script with
`rustc` once; only when the compile spawned and exited zero, run the
built binary (named `<stem>.bin` outside Windows) once.  A spawn failure
is a `ProcessError` (compile) or `IoError` (script), a non-zero exit a
`BuildError`; nothing is re-attempted. -/
def run_rust_script (stem : String) (rustc binr : RunOutcome) :
    Except CustomError Unit × List String :=
  match rustc with
  | .spawnFail =>
    (.error (.processError "Failed to compile rust script"), ["rustc"])
  | .exited 0 =>
    match binr with
    | .spawnFail =>
      (.error (.ioError "script status"), ["rustc", stem ++ ".bin"])
    | .exited 0 => (.ok (), ["rustc", stem ++ ".bin"])
    | .exited _ =>
      (.error (.buildError ("Rust script " ++ stem ++ " failed")),
        ["rustc", stem ++ ".bin"])
  | .exited _ =>
    (.error (.buildError ("Failed to compile " ++ stem)), ["rustc"])

/-- The per-file dispatch of `visit_utility_dir` (`src/build.rs:493`):
`.py` files go through the python3/python fallback, `.rs` files through
`run_rust_script`, `.odin` files through one `odin run` invocation, any
other extension runs nothing. -/
def run_utility_file (ext stem : String) (o1 o2 : RunOutcome) :
    Except CustomError Unit × List String :=
  if ext = "py" then run_py_script o1 o2
  else if ext = "rs" then run_rust_script stem o1 o2
  else if ext = "odin" then run_with_prefix_run "odin" o1
  else (.ok (), [])

/-- `run_in_emsdk` (`src/build.rs:430`): a single shell invocation
(`bash -c` or `cmd /C`) that sources the SDK environment and runs the
command; spawn failure is a `ProcessError`, non-zero exit a `BuildError`,
and there is no retry. -/
def run_in_emsdk (shell : String) (o : RunOutcome) :
    Except CustomError Unit × List String :=
  match o with
  | .spawnFail =>
    (.error (.processError "Failed to run Emscripten command"), [shell])
  | .exited 0 => (.ok (), [shell])
  | .exited _ => (.error (.buildError "Emscripten command failed"), [shell])

/-- The single-spawn toolchain probes: `check_dependencies`
(`src/build.rs:586`, `odin version`), the MSVC `cl` probe
(`src/sokol.rs:55`) and the `emcc --version` probe (`src/sokol.rs:178`).
Each spawns its command once and only distinguishes spawn failure (the
exit code is ignored); no alternate candidate is tried. -/
def toolchain_check_run (cmd : String) (o : RunOutcome) :
    Except CustomError Unit × List String :=
  match o with
  | .spawnFail => (.error (.buildError (cmd ++ " not found")), [cmd])
  | .exited _ => (.ok (), [cmd])

/-- The process part of one `build_windows` task (`src/sokol.rs:306`):
`cl` once, then — only after a zero exit — `lib` once. -/
def build_windows (cl lib : RunOutcome) :
    Except CustomError Unit × List String :=
  match cl with
  | .spawnFail => (.error (.processError "Failed to run cl.exe"), ["cl"])
  | .exited 0 =>
    match lib with
    | .spawnFail =>
      (.error (.processError "Failed to run lib.exe"), ["cl", "lib"])
    | .exited 0 => (.ok (), ["cl", "lib"])
    | .exited _ => (.error (.buildError "LIB failed"), ["cl", "lib"])
  | .exited _ => (.error (.buildError "CL compilation failed"), ["cl"])

/-- The process part of one `build_unix` task (`src/sokol.rs:367`):
`clang` once, then — only after a zero exit — `ar` once. -/
def build_unix (clang ar : RunOutcome) :
    Except CustomError Unit × List String :=
  match clang with
  | .spawnFail => (.error (.processError "Clang failed"), ["clang"])
  | .exited 0 =>
    match ar with
    | .spawnFail =>
      (.error (.processError "Ar failed"), ["clang", "ar"])
    | .exited 0 => (.ok (), ["clang", "ar"])
    | .exited _ =>
      (.error (.buildError "Archive failed"), ["clang", "ar"])
  | .exited _ => (.error (.buildError "Compilation failed"), ["clang"])

/-- The process part of one WASM task of `compile_sokol_wasm`
(`src/sokol.rs:242`): `emcc` once, then — only after a zero exit —
`emar` once. -/
def compile_sokol_wasm_task (emcc emar : RunOutcome) :
    Except CustomError Unit × List String :=
  match emcc with
  | .spawnFail =>
    (.error (.processError "Failed to run emcc"), ["emcc"])
  | .exited 0 =>
    match emar with
    | .spawnFail =>
      (.error (.processError "Failed to run emar"), ["emcc", "emar"])
    | .exited 0 => (.ok (), ["emcc", "emar"])
    | .exited _ =>
      (.error (.buildError "WASM archiving failed"), ["emcc", "emar"])
  | .exited _ =>
    (.error (.buildError "WASM compilation failed"), ["emcc"])

/-- `cur` is a cut-short front of `full`.  An operation whose invocation
trace under arbitrary outcomes is always such a front of its all-success
trace is fail-fast: a failure only stops the fixed command sequence
early, it never adds an attempt — the negation of an automatic retry. -/
def truncation_of (cur full : List String) : Prop := ∃ n, cur = full.take n

/-! # Theorems -/

/-- C1: the staleness gate reports stale iff the output does not exist or
the source's modified-time is strictly greater than the output's; equal
timestamps count as already built.  Stated both for the single-file gate
`should_skip` and for `should_repack` over a tree holding one matching
`*.png` file. -/
theorem c1_staleness_gate (src_time : Nat) (out : Option Nat) :
    (is_stale src_time out = true ↔
      out = none ∨ ∃ t, out = some t ∧ t < src_time) ∧
    is_stale src_time (some src_time) = false ∧
    (∀ e : DirEntry, e.isDir = false → file_name e.path ≠ ATLAS_NAME →
      ext_of (file_name e.path) = some "png" →
      (should_repack [e] true out = true ↔
        out = none ∨ ∃ t, out = some t ∧ t < e.mtime)) := by
  refine ⟨?_, ?_, ?_⟩
  · cases out with
    | none => simp [is_stale, should_skip]
    | some t =>
      simp only [is_stale, should_skip, Bool.not_eq_true']
      constructor
      · intro h
        simp only [decide_eq_false_iff_not] at h
        exact Or.inr ⟨t, rfl, by omega⟩
      · rintro (h | ⟨t2, ht2, hlt⟩)
        · exact absurd h (by simp)
        · cases ht2
          simp only [decide_eq_false_iff_not]
          omega
  · simp [is_stale, should_skip]
  · intro e hdir hname hext
    cases out with
    | none => simp [should_repack]
    | some t =>
      simp only [should_repack, Bool.not_true, Bool.false_eq_true,
        if_false, List.any_cons, List.any_nil, Bool.or_false,
        repack_entry_newer, hdir, Bool.not_false, Bool.true_and]
      rw [beq_eq_false_iff_ne.mpr hname]
      simp only [Bool.not_false, Bool.true_and]
      rw [show (ext_of (file_name e.path) == some "png") = true from beq_iff_eq.mpr hext]
      simp only [Bool.true_and, decide_eq_true_eq]
      constructor
      · intro h
        exact Or.inr ⟨t, rfl, h⟩
      · rintro (h | ⟨t2, ht2, hlt⟩)
        · exact absurd h (by simp)
        · cases ht2
          exact hlt

/-- Witness for C1 at concrete timestamps: source newer than output is
stale, for both gates. -/
theorem c1_staleness_gate_witness :
    is_stale 7 (some 5) = true ∧
    should_repack [⟨["assets", "images", "hero.png"], false, 7⟩] true (some 5) = true :=
  ⟨(c1_staleness_gate 7 (some 5)).1.mpr (Or.inr ⟨5, rfl, by decide⟩),
    ((c1_staleness_gate 7 (some 5)).2.2 ⟨["assets", "images", "hero.png"], false, 7⟩
      rfl (by decide) (by decide)).mpr (Or.inr ⟨5, rfl, by decide⟩)⟩

/-- C5: extruding a `(w, h)` image yields a `(w+2, h+2)` image whose
interior at offset `(1,1)` is the original, whose four edge rows/columns
replicate the original's edge pixels, and whose four corners equal the
original's corners. -/
theorem c5_extrude_tile (img : Img) (hw : 0 < img.w) (hh : 0 < img.h) :
    (extrude_tile img).w = img.w + 2 ∧
    (extrude_tile img).h = img.h + 2 ∧
    (∀ x y, x < img.w → y < img.h →
      (extrude_tile img).pix (x + 1) (y + 1) = img.pix x y) ∧
    (∀ y, y < img.h → (extrude_tile img).pix 0 (y + 1) = img.pix 0 y) ∧
    (∀ y, y < img.h →
      (extrude_tile img).pix (img.w + 1) (y + 1) = img.pix (img.w - 1) y) ∧
    (∀ x, x < img.w → (extrude_tile img).pix (x + 1) 0 = img.pix x 0) ∧
    (∀ x, x < img.w →
      (extrude_tile img).pix (x + 1) (img.h + 1) = img.pix x (img.h - 1)) ∧
    (extrude_tile img).pix 0 0 = img.pix 0 0 ∧
    (extrude_tile img).pix (img.w + 1) 0 = img.pix (img.w - 1) 0 ∧
    (extrude_tile img).pix 0 (img.h + 1) = img.pix 0 (img.h - 1) ∧
    (extrude_tile img).pix (img.w + 1) (img.h + 1) =
      img.pix (img.w - 1) (img.h - 1) := by
  refine ⟨rfl, rfl, ?_, ?_, ?_, ?_, ?_, ?_, ?_, ?_, ?_⟩
  · intro x y hx hy
    have h1 : x + 1 ≠ 0 := by omega
    have h2 : y + 1 ≠ 0 := by omega
    have h3 : x + 1 ≠ img.w + 1 := by omega
    have h4 : y + 1 ≠ img.h + 1 := by omega
    simp [extrude_tile, h1, h2, h3, h4]
  · intro y hy
    have h2 : y + 1 ≠ 0 := by omega
    have h4 : y + 1 ≠ img.h + 1 := by omega
    have h5 : (0 : Nat) ≠ img.w + 1 := by omega
    simp [extrude_tile, h2, h4, h5]
  · intro y hy
    have h2 : y + 1 ≠ 0 := by omega
    have h4 : y + 1 ≠ img.h + 1 := by omega
    have h6 : img.w + 1 ≠ 0 := by omega
    simp [extrude_tile, h2, h4, h6]
  · intro x hx
    have h1 : x + 1 ≠ 0 := by omega
    have h3 : x + 1 ≠ img.w + 1 := by omega
    simp [extrude_tile, h1, h3]
  · intro x hx
    have h1 : x + 1 ≠ 0 := by omega
    have h3 : x + 1 ≠ img.w + 1 := by omega
    have h7 : img.h + 1 ≠ 0 := by omega
    simp [extrude_tile, h1, h3, h7]
  · simp [extrude_tile]
  · have h6 : img.w + 1 ≠ 0 := by omega
    simp [extrude_tile, h6]
  · have h5 : (0 : Nat) ≠ img.w + 1 := by omega
    have h7 : img.h + 1 ≠ 0 := by omega
    simp [extrude_tile, h5, h7]
  · have h6 : img.w + 1 ≠ 0 := by omega
    have h7 : img.h + 1 ≠ 0 := by omega
    simp [extrude_tile, h6, h7]


/-- Witness for C5 on a concrete 2 x 2 image. -/
def c5Img : Img := ⟨2, 2, fun x y => x + 10 * y⟩

/-- Witness for C5: the extrusion facts instantiated on `c5Img`. -/
theorem c5_extrude_tile_witness :
    (extrude_tile c5Img).w = c5Img.w + 2 ∧
    (extrude_tile c5Img).pix 2 2 = c5Img.pix 1 1 ∧
    (extrude_tile c5Img).pix 0 1 = c5Img.pix 0 0 ∧
    (extrude_tile c5Img).pix 3 3 = c5Img.pix 1 1 :=
  ⟨(c5_extrude_tile c5Img (by decide) (by decide)).1,
    (c5_extrude_tile c5Img (by decide) (by decide)).2.2.1 1 1 (by decide) (by decide),
    (c5_extrude_tile c5Img (by decide) (by decide)).2.2.2.1 0 (by decide),
    (c5_extrude_tile c5Img (by decide) (by decide)).2.2.2.2.2.2.2.2.2.2⟩

/-- Row-major double loop over `rows x cols` as a single loop over
linear indices `0 .. rows*cols`. -/
theorem flatMap_range_eq_range_mul {α : Type} (cols : Nat) (f : Nat → Nat → α)
    (g : Nat → α) (hfg : ∀ x y, x < cols → f x y = g (x + y * cols)) :
    ∀ rows, (List.range rows).flatMap
        (fun y => (List.range cols).map (fun x => f x y)) =
      (List.range (rows * cols)).map g := by
  intro rows
  induction rows with
  | zero => simp
  | succ n ih =>
    rw [List.range_succ, List.flatMap_append, ih]
    simp only [List.flatMap_cons, List.flatMap_nil, List.append_nil]
    rw [Nat.succ_mul, List.range_add, List.map_append, List.map_map]
    congr 1
    apply List.map_congr_left
    intro x hx
    rw [hfg x n (List.mem_range.mp hx)]
    simp [Nat.add_comm]

/-- C4: slicing a tileset of size `(cols*W, rows*H)` under grid spec
`(W, H)` — the parse of the filename suffix, or the 16 x 16 default —
yields exactly `cols * rows` tiles in row-major order: the tile at linear
index `i` is cropped at column `i % cols`, row `i / cols`, and keyed
`"<stem>_<i>"`. -/
theorem c4_tileset_slicing (stem : String) (img : Img) (W H cols rows : Nat)
    (hgrid : (parse_grid_size_from_name stem).getD
      (DEFAULT_TILE_SIZE, DEFAULT_TILE_SIZE) = (W, H))
    (hW : 0 < W) (hH : 0 < H)
    (hw : img.w = cols * W) (hh : img.h = rows * H) :
    slice_tiles stem img W H =
      (List.range (cols * rows)).map (fun i =>
        (stem ++ "_" ++ toString i,
          extrude_tile (flip_vertical
            (crop_imm img ((i % cols) * W) ((i / cols) * H) W H)))) ∧
    (slice_tiles stem img W H).length = cols * rows ∧
    (slice_tiles stem img W H).map (fun t => t.1) =
      (List.range (cols * rows)).map (fun i => stem ++ "_" ++ toString i) := by
  have hcols : img.w / W = cols := by
    rw [hw]; exact Nat.mul_div_cancel cols hW
  have hrows : img.h / H = rows := by
    rw [hh]; exact Nat.mul_div_cancel rows hH
  have hmain : slice_tiles stem img W H =
      (List.range (cols * rows)).map (fun i =>
        (stem ++ "_" ++ toString i,
          extrude_tile (flip_vertical
            (crop_imm img ((i % cols) * W) ((i / cols) * H) W H)))) := by
    rw [slice_tiles, hcols, hrows, Nat.mul_comm cols rows]
    apply flatMap_range_eq_range_mul
    intro x y hx
    have h1 : (x + y * cols) % cols = x := by
      rw [Nat.add_mul_mod_self_right, Nat.mod_eq_of_lt hx]
    have h2 : (x + y * cols) / cols = y := by
      rw [Nat.add_mul_div_right _ _ (by omega : 0 < cols),
        Nat.div_eq_of_lt hx, Nat.zero_add]
    rw [h1, h2]
  refine ⟨hmain, ?_, ?_⟩
  · rw [hmain, List.length_map, List.length_range]
  · rw [hmain, List.map_map]
    rfl

/-- Witness image for C4: a 4 x 2 tileset. -/
def c4Img : Img := ⟨4, 2, fun x y => x + 10 * y⟩

/-- Witness for C4: slicing `c4Img` under the grid parsed from
`"tiles_2x2"` yields 2 tiles keyed `tiles_2x2_0`, `tiles_2x2_1`. -/
theorem c4_tileset_slicing_witness :
    (parse_grid_size_from_name "tiles_2x2").getD
      (DEFAULT_TILE_SIZE, DEFAULT_TILE_SIZE) = (2, 2) ∧
    (slice_tiles "tiles_2x2" c4Img 2 2).length = 2 * 1 ∧
    (slice_tiles "tiles_2x2" c4Img 2 2).map (fun t => t.1) =
      (List.range (2 * 1)).map (fun i => "tiles_2x2" ++ "_" ++ toString i) :=
  ⟨by decide,
    (c4_tileset_slicing "tiles_2x2" c4Img 2 2 2 1 (by decide) (by decide)
      (by decide) rfl rfl).2.1,
    (c4_tileset_slicing "tiles_2x2" c4Img 2 2 2 1 (by decide) (by decide)
      (by decide) rfl rfl).2.2⟩

/-! ### Skyline packer invariant -/

theorem segCovers_iff {s : Seg} {px : Nat} :
    segCovers s px = true ↔ s.x ≤ px ∧ px < s.x + s.w := by
  simp [segCovers]

theorem skyAt_nil (px : Nat) : skyAt [] px = 0 := rfl

theorem skyAt_cons (s : Seg) (sl : List Seg) (px : Nat) :
    skyAt (s :: sl) px =
      if segCovers s px then max s.y (skyAt sl px) else skyAt sl px := rfl

theorem spanMax_cons (s : Seg) (sl : List Seg) (x w : Nat) :
    spanMax (s :: sl) x w =
      if decide (s.x < x + w) && decide (x < s.x + s.w) then
        max s.y (spanMax sl x w)
      else spanMax sl x w := rfl

/-- A column inside the span is never taller than the span maximum. -/
theorem skyAt_le_spanMax (sl : List Seg) (x w px : Nat)
    (h1 : x ≤ px) (h2 : px < x + w) : skyAt sl px ≤ spanMax sl x w := by
  induction sl with
  | nil => exact Nat.le_refl 0
  | cons s rest ih =>
    rw [skyAt_cons, spanMax_cons]
    by_cases hc : segCovers s px = true
    · have hcv := segCovers_iff.mp hc
      have hov : (decide (s.x < x + w) && decide (x < s.x + s.w)) = true := by
        simp only [Bool.and_eq_true, decide_eq_true_eq]
        omega
      rw [if_pos hc, if_pos hov]
      omega
    · rw [if_neg hc]
      split
      · omega
      · exact ih

/-- A member segment covering a column bounds the skyline from below
there. -/
theorem mem_cover_le_skyAt {s : Seg} {sl : List Seg} {px : Nat}
    (hm : s ∈ sl) (hc : segCovers s px = true) : s.y ≤ skyAt sl px := by
  induction sl with
  | nil => cases hm
  | cons t rest ih =>
    rw [skyAt_cons]
    rcases List.mem_cons.mp hm with h | h
    · subst h
      rw [if_pos hc]
      omega
    · have := ih h
      split <;> omega

/-- The skyline height is bounded by any bound on all covering members. -/
theorem skyAt_le_of_forall {sl : List Seg} {px m : Nat}
    (hb : ∀ s ∈ sl, segCovers s px = true → s.y ≤ m) : skyAt sl px ≤ m := by
  induction sl with
  | nil => exact Nat.zero_le m
  | cons t rest ih =>
    rw [skyAt_cons]
    have hrest : skyAt rest px ≤ m :=
      ih (fun s hs hc => hb s (List.mem_cons_of_mem t hs) hc)
    split
    · have := hb t (List.mem_cons_self t rest) (by assumption)
      omega
    · exact hrest

/-- `segCovers` on a literal segment. -/
theorem segCovers_mk (a b c px : Nat) :
    segCovers ⟨a, b, c⟩ px = true ↔ a ≤ px ∧ px < a + c :=
  segCovers_iff

/-- A segment covering a column outside the raised span keeps a clipped
part, of the same height, covering that column. -/
theorem clip_covers {s : Seg} {x w px : Nat} (hc : segCovers s px = true)
    (hout : px < x ∨ x + w ≤ px) :
    ∃ s2 ∈ clipSeg x w s, segCovers s2 px = true ∧ s2.y = s.y := by
  have hcv := segCovers_iff.mp hc
  rcases hout with hl | hr
  · have hcov : segCovers ⟨s.x, s.y, min s.w (x - s.x)⟩ px = true :=
      (segCovers_mk s.x s.y (min s.w (x - s.x)) px).mpr ⟨hcv.1, by omega⟩
    refine ⟨⟨s.x, s.y, min s.w (x - s.x)⟩, ?_, hcov, rfl⟩
    rw [clipSeg, if_pos (show s.x < x by omega)]
    exact List.mem_append_left _ (List.mem_cons_self _ _)
  · have hcov : segCovers ⟨max s.x (x + w), s.y,
        s.x + s.w - max s.x (x + w)⟩ px = true :=
      (segCovers_mk (max s.x (x + w)) s.y
        (s.x + s.w - max s.x (x + w)) px).mpr ⟨by omega, by omega⟩
    refine ⟨⟨max s.x (x + w), s.y, s.x + s.w - max s.x (x + w)⟩, ?_, hcov, rfl⟩
    rw [clipSeg, if_pos (show x + w < s.x + s.w by omega)]
    exact List.mem_append_right _ (List.mem_cons_self _ _)

/-- Raising the skyline over the span of its own maximum never lowers it
anywhere. -/
theorem skyAt_raise_ge (sl : List Seg) (x w h px : Nat) :
    skyAt sl px ≤ skyAt (raise sl x w (spanMax sl x w) h) px := by
  by_cases hin : x ≤ px ∧ px < x + w
  · have h1 : skyAt sl px ≤ spanMax sl x w :=
      skyAt_le_spanMax sl x w px hin.1 hin.2
    have h2 : (⟨x, spanMax sl x w + h, w⟩ : Seg) ∈
        raise sl x w (spanMax sl x w) h :=
      List.mem_cons_self _ _
    have h3 : spanMax sl x w + h ≤ skyAt (raise sl x w (spanMax sl x w) h) px :=
      mem_cover_le_skyAt h2
        ((segCovers_mk x (spanMax sl x w + h) w px).mpr hin)
    omega
  · apply skyAt_le_of_forall
    intro s hs hc
    have hout : px < x ∨ x + w ≤ px := by
      by_cases hx1 : x ≤ px
      · exact Or.inr (by by_contra hx2; exact hin ⟨hx1, by omega⟩)
      · exact Or.inl (by omega)
    obtain ⟨s2, hm2, hc2, hy2⟩ := clip_covers hc hout
    have hmem : s2 ∈ raise sl x w (spanMax sl x w) h :=
      List.mem_cons_of_mem _ (List.mem_flatMap.mpr ⟨s, hs, hm2⟩)
    have := mem_cover_le_skyAt hmem hc2
    omega

/-- The raised skyline covers the raised span at the new height. -/
theorem skyAt_raise_span (sl : List Seg) (x w y h px : Nat)
    (h1 : x ≤ px) (h2 : px < x + w) :
    y + h ≤ skyAt (raise sl x w y h) px := by
  have hm : (⟨x, y + h, w⟩ : Seg) ∈ raise sl x w y h := List.mem_cons_self _ _
  exact mem_cover_le_skyAt hm ((segCovers_mk x (y + h) w px).mpr ⟨h1, h2⟩)

/-- Every position returned by `tryFit` is the span maximum at its column
and respects the usable bounds. -/
theorem tryFit_spec {sl : List Seg} {w h x x2 y2 : Nat}
    (ht : tryFit sl w h x = some (x2, y2)) :
    x2 = x ∧ y2 = spanMax sl x w ∧ x + w ≤ USABLE_W ∧ y2 + h ≤ USABLE_H := by
  rw [tryFit] at ht
  split at ht
  · split at ht
    · injection ht with ht2
      injection ht2 with ha hb
      subst ha
      subst hb
      refine ⟨rfl, rfl, by assumption, by assumption⟩
    · cases ht
  · cases ht

/-- A merged position is one of the two merged candidates. -/
theorem mergePos_cases {c r : Option (Nat × Nat)} {p : Nat × Nat}
    (hm : mergePos c r = some p) : c = some p ∨ r = some p := by
  rcases c with _ | c2 <;> rcases r with _ | b2 <;>
    simp only [mergePos] at hm
  · exact Option.noConfusion hm
  · exact Or.inr hm
  · exact Or.inl hm
  · split at hm
    · exact Or.inr hm
    · exact Or.inl hm

/-- Every position returned by the candidate scan comes from `tryFit`. -/
theorem findPosGo_spec {sl : List Seg} {w h : Nat} :
    ∀ {cands : List Seg} {x y : Nat}, findPosGo sl w h cands = some (x, y) →
      y = spanMax sl x w ∧ x + w ≤ USABLE_W ∧ y + h ≤ USABLE_H := by
  intro cands
  induction cands with
  | nil => intro x y hgo; cases hgo
  | cons s rest ih =>
    intro x y hgo
    rw [findPosGo] at hgo
    rcases mergePos_cases hgo with hc | hc
    · obtain ⟨hx2, hy2, hb1, hb2⟩ := tryFit_spec hc
      subst hx2
      exact ⟨hy2, hb1, by omega⟩
    · exact ih hc

/-- The chosen placement sits at the span maximum, inside the usable
bounds. -/
theorem findPos_spec {sl : List Seg} {w h x y : Nat}
    (hf : findPos sl w h = some (x, y)) :
    y = spanMax sl x w ∧ x + w ≤ USABLE_W ∧ y + h ≤ USABLE_H :=
  findPosGo_spec hf

/-- The padded width a frame occupies in the skyline. -/
def frameW (f : Frame) : Nat := f.img.w + PAD

/-- The padded height a frame occupies in the skyline. -/
def frameH (f : Frame) : Nat := f.img.h + PAD

/-- Two frames' padded extents are separated along some axis. -/
def sepExp (f g : Frame) : Prop :=
  f.x + frameW f ≤ g.x ∨ g.x + frameW g ≤ f.x ∨
    f.y + frameH f ≤ g.y ∨ g.y + frameH g ≤ f.y

/-- A frame sits under the skyline over its padded span and inside the
usable area. -/
def FrameOk (sl : List Seg) (f : Frame) : Prop :=
  (∀ px, f.x ≤ px → px < f.x + frameW f → f.y + frameH f ≤ skyAt sl px) ∧
    f.x + frameW f ≤ USABLE_W ∧ f.y + frameH f ≤ USABLE_H

/-- The packer invariant: pairwise separated frames, all under the
skyline and in bounds. -/
def StInv (st : PackerSt) : Prop :=
  st.frames.Pairwise sepExp ∧ ∀ f ∈ st.frames, FrameOk st.sky f

theorem stInv_new : StInv packer_new :=
  ⟨List.Pairwise.nil, fun f hf => absurd hf (List.not_mem_nil f)⟩

/-- Peel a successful `Except.bind`. -/
theorem except_bind_ok {e a b : Type} {m : Except e a} {f : a → Except e b}
    {v : b} (h : m.bind f = .ok v) : ∃ u, m = .ok u ∧ f u = .ok v := by
  cases m with
  | error err => exact Except.noConfusion h
  | ok u => exact ⟨u, rfl, h⟩

/-- Peel a successful `Except.map`. -/
theorem except_map_ok {e a b : Type} {m : Except e a} {f : a → b}
    {v : b} (h : Except.map f m = .ok v) : ∃ u, m = .ok u ∧ f u = v := by
  cases m with
  | error err => exact Except.noConfusion h
  | ok u => exact ⟨u, rfl, Except.ok.inj h⟩

/-- `pack_own` preserves the packer invariant. -/
theorem pack_own_inv {st : PackerSt} {key : String} {img : Img}
    {st2 : PackerSt} (hp : pack_own st key img = .ok st2)
    (hinv : StInv st) : StInv st2 := by
  rw [pack_own] at hp
  rcases hf : findPos st.sky (img.w + PAD) (img.h + PAD) with _ | ⟨x, y⟩ <;>
    rw [hf] at hp
  · cases hp
  · injection hp with hst
    obtain ⟨hy, hbw, hbh⟩ := findPos_spec hf
    subst hy
    obtain ⟨hpair, hok⟩ := hinv
    have hnewOk : FrameOk (raise st.sky x (img.w + PAD)
        (spanMax st.sky x (img.w + PAD)) (img.h + PAD))
        ⟨key, x, spanMax st.sky x (img.w + PAD), img⟩ := by
      refine ⟨?_, hbw, hbh⟩
      intro px hp1 hp2
      exact skyAt_raise_span st.sky x (img.w + PAD) _ (img.h + PAD) px hp1 hp2
    rw [← hst]
    constructor
    · show List.Pairwise sepExp (st.frames ++
        [⟨key, x, spanMax st.sky x (img.w + PAD), img⟩])
      rw [List.pairwise_append]
      refine ⟨hpair, List.pairwise_singleton _ _, ?_⟩
      intro f hfmem g hgmem
      rw [List.mem_singleton] at hgmem
      subst hgmem
      by_cases hsep : f.x + frameW f ≤ x ∨ x + (img.w + PAD) ≤ f.x
      · rcases hsep with h | h
        · exact Or.inl h
        · exact Or.inr (Or.inl h)
      · refine Or.inr (Or.inr (Or.inl ?_))
        show f.y + frameH f ≤ spanMax st.sky x (img.w + PAD)
        have hWpos : 0 < frameW f := by
          rw [frameW, PAD]; omega
        have hwpos : 0 < img.w + PAD := by rw [PAD]; omega
        have hpx1 : f.x ≤ max f.x x := Nat.le_max_left _ _
        have hpx2 : max f.x x < f.x + frameW f := by omega
        have hunder := (hok f hfmem).1 (max f.x x) hpx1 hpx2
        have hspan : skyAt st.sky (max f.x x) ≤
            spanMax st.sky x (img.w + PAD) :=
          skyAt_le_spanMax st.sky x (img.w + PAD) (max f.x x)
            (Nat.le_max_right _ _) (by omega)
        omega
    · show ∀ f ∈ st.frames ++
        [⟨key, x, spanMax st.sky x (img.w + PAD), img⟩],
        FrameOk (raise st.sky x (img.w + PAD)
          (spanMax st.sky x (img.w + PAD)) (img.h + PAD)) f
      intro f hfmem
      rw [List.mem_append] at hfmem
      rcases hfmem with hold | hnew
      · obtain ⟨hu, hb1, hb2⟩ := hok f hold
        refine ⟨?_, hb1, hb2⟩
        intro px hp1 hp2
        have hge := skyAt_raise_ge st.sky x (img.w + PAD) (img.h + PAD) px
        have := hu px hp1 hp2
        omega
      · rw [List.mem_singleton] at hnew
        subst hnew
        exact hnewOk

/-- `pack_many` preserves the packer invariant. -/
theorem pack_many_inv :
    ∀ {items : List (String × Img)} {st st2 : PackerSt},
      pack_many st items = .ok st2 → StInv st → StInv st2 := by
  intro items
  induction items with
  | nil =>
    intro st st2 hp hinv
    injection hp with he
    exact he ▸ hinv
  | cons ki rest ih =>
    intro st st2 hp hinv
    rw [pack_many] at hp
    obtain ⟨st3, ho, hrest⟩ := except_bind_ok hp
    exact ih hrest (pack_own_inv ho hinv)

/-- Unfolding `pack_path` when the image loads. -/
theorem pack_path_some {fs : FsPath → Option Img} {p : FsPath} {img : Img}
    (hfs : fs p = some img) (st : ProcSt) :
    pack_path fs st p =
      if path_starts_with p TILESETS_DIR then
        pack_tileset st (file_stem (file_name p)) img
      else pack_flat st (file_stem (file_name p)) img := by
  rw [pack_path, hfs]

/-- Unfolding `pack_path` when the image fails to load. -/
theorem pack_path_none {fs : FsPath → Option Img} {p : FsPath}
    (hfs : fs p = none) (st : ProcSt) :
    pack_path fs st p =
      .error (.validationError ("Failed to load " ++ file_name p)) := by
  rw [pack_path, hfs]

/-- `pack_tileset` preserves the packer invariant. -/
theorem pack_tileset_inv {st : ProcSt} {stem : String} {img : Img}
    {st2 : ProcSt} (hp : pack_tileset st stem img = .ok st2)
    (hinv : StInv st.packer) : StInv st2.packer := by
  rw [pack_tileset] at hp
  by_cases hz : (grid_of stem).1 = 0 ∨ (grid_of stem).2 = 0
  · rw [if_pos hz] at hp
    exact Except.noConfusion hp
  · rw [if_neg hz] at hp
    obtain ⟨pk, hm, he⟩ := except_map_ok hp
    rw [← he]
    exact pack_many_inv hm hinv

/-- `pack_flat` preserves the packer invariant. -/
theorem pack_flat_inv {st : ProcSt} {stem : String} {img : Img}
    {st2 : ProcSt} (hp : pack_flat st stem img = .ok st2)
    (hinv : StInv st.packer) : StInv st2.packer := by
  rw [pack_flat] at hp
  obtain ⟨pk, ho, he⟩ := except_map_ok hp
  rw [← he]
  exact pack_own_inv ho hinv

/-- `pack_path` preserves the packer invariant. -/
theorem pack_path_inv {fs : FsPath → Option Img} {st st2 : ProcSt}
    {p : FsPath} (hp : pack_path fs st p = .ok st2)
    (hinv : StInv st.packer) : StInv st2.packer := by
  rcases hfs : fs p with _ | img
  · rw [pack_path_none hfs] at hp
    exact Except.noConfusion hp
  · rw [pack_path_some hfs] at hp
    by_cases hts : path_starts_with p TILESETS_DIR = true
    · rw [if_pos hts] at hp
      exact pack_tileset_inv hp hinv
    · rw [if_neg hts] at hp
      exact pack_flat_inv hp hinv

/-- `process_images` preserves the packer invariant. -/
theorem process_images_inv {fs : FsPath → Option Img} :
    ∀ {paths : List FsPath} {st st2 : ProcSt},
      process_images fs st paths = .ok st2 → StInv st.packer →
        StInv st2.packer := by
  intro paths
  induction paths with
  | nil =>
    intro st st2 hp hinv
    injection hp with he
    exact he ▸ hinv
  | cons p rest ih =>
    intro st st2 hp hinv
    rw [process_images] at hp
    obtain ⟨st3, h1, hrest⟩ := except_bind_ok hp
    exact ih hrest (pack_path_inv h1 hinv)

/-- A point lies inside a rect. -/
def rect_contains (r : Rect) (px py : Nat) : Prop :=
  r.x ≤ px ∧ px < r.x + r.w ∧ r.y ≤ py ∧ py < r.y + r.h

/-- Two rects share no point. -/
def rects_disjoint (r1 r2 : Rect) : Prop :=
  ∀ px py, ¬(rect_contains r1 px py ∧ rect_contains r2 px py)

/-- Every frame reaches at most the rightmost occupied column. -/
theorem extent_w_mem : ∀ {frames : List Frame} {f : Frame},
    f ∈ frames → f.x + f.img.w ≤ extent_w frames := by
  intro frames
  induction frames with
  | nil => intro f hf; cases hf
  | cons g rest ih =>
    intro f hf
    show _ ≤ max (g.x + g.img.w) (extent_w rest)
    rcases List.mem_cons.mp hf with h | h
    · subst h
      omega
    · have := ih h
      omega

/-- Every frame reaches at most the topmost occupied row. -/
theorem extent_h_mem : ∀ {frames : List Frame} {f : Frame},
    f ∈ frames → f.y + f.img.h ≤ extent_h frames := by
  intro frames
  induction frames with
  | nil => intro f hf; cases hf
  | cons g rest ih =>
    intro f hf
    show _ ≤ max (g.y + g.img.h) (extent_h rest)
    rcases List.mem_cons.mp hf with h | h
    · subst h
      omega
    · have := ih h
      omega

/-- C3: in every `AtlasOutput` produced by a successful pack, the sprite
rects are pairwise disjoint, and every rect lies fully within
`[0, width) x [0, height)` of the atlas. -/
theorem c3_atlas_invariant (fs : FsPath → Option Img) (paths : List FsPath)
    (out : AtlasOutput) (hok : pack_images fs paths = .ok out) :
    out.sprites.Pairwise (fun s1 s2 => rects_disjoint s1.rect s2.rect) ∧
    ∀ s ∈ out.sprites,
      s.rect.x + s.rect.w ≤ out.width ∧ s.rect.y + s.rect.h ≤ out.height := by
  rw [pack_images] at hok
  obtain ⟨st, hpr, he⟩ := except_map_ok hok
  obtain ⟨hpair, hokf⟩ := process_images_inv hpr stInv_new
  rw [← he]
  constructor
  · show List.Pairwise _ (export_atlas st).sprites
    rw [export_atlas]
    dsimp only
    rw [List.pairwise_map]
    refine hpair.imp ?_
    intro f g hsep px py hcon
    simp only [rect_contains] at hcon
    obtain ⟨⟨h1, h2, h3, h4⟩, h5, h6, h7, h8⟩ := hcon
    simp only [sepExp, frameW, frameH] at hsep
    rcases hsep with h | h | h | h <;> omega
  · show ∀ s ∈ (export_atlas st).sprites, _
    rw [export_atlas]
    dsimp only
    intro s hs
    rw [List.mem_map] at hs
    obtain ⟨f, hfmem, hfs⟩ := hs
    subst hfs
    have h1 := extent_w_mem hfmem
    have h2 := extent_h_mem hfmem
    dsimp only
    constructor <;> omega

/-- Concrete image for the C3 witness. -/
def c3Img : Img := ⟨3, 3, fun x y => x + 10 * y⟩

/-- Concrete filesystem for the C3 witness. -/
def c3Fs : FsPath → Option Img := fun p =>
  if p = ["assets", "images", "a.png"] then some c3Img
  else if p = ["assets", "images", "b.png"] then some c3Img
  else none

/-- Concrete sorted file list for the C3 witness. -/
def c3Paths : List FsPath :=
  [["assets", "images", "a.png"], ["assets", "images", "b.png"]]

/-- The atlas the C3 witness scenario produces. -/
def c3Out : AtlasOutput :=
  (pack_images c3Fs c3Paths).toOption.getD ⟨0, 0, ⟨0, 0, fun _ _ => 0⟩, []⟩

/-- The first sprite of the C3 witness atlas. -/
def c3S : PackedSprite := c3Out.sprites.getD 0 ⟨"", ⟨0, 0, 0, 0⟩, 0, 0, false⟩

/-- Witness for C3: the pack succeeds on two concrete sprites and the
in-bounds half of the invariant holds at the first sprite. -/
theorem c3_atlas_invariant_witness :
    pack_images c3Fs c3Paths = .ok c3Out ∧
    c3S.rect.x + c3S.rect.w ≤ c3Out.width ∧
    c3S.rect.y + c3S.rect.h ≤ c3Out.height :=
  ⟨rfl, (c3_atlas_invariant c3Fs c3Paths c3Out rfl).2 c3S (by decide)⟩

/-- Concrete 32 x 32 image for the C6 scenario. -/
def heroImg : Img := ⟨32, 32, fun x y => x + 100 * y⟩

/-- The flat sprite path of the C6 scenario. -/
def heroPath : FsPath := ["assets", "images", "hero.png"]

/-- Filesystem of the C6 scenario: one `hero.png`, no tilesets. -/
def heroFs : FsPath → Option Img := fun p =>
  if p = heroPath then some heroImg else none

/-- Walk entries of the C6 scenario. -/
def heroEntries : List DirEntry := [⟨heroPath, false, 5⟩]

/-- Counterexample to C6 as stated: the source extrudes only tileset
tiles (`src/packer.rs:157` packs flat sprites without `extrude_tile`), so
`hero`'s stored size is `(32, 32)`, not the claimed `(34, 34)`. -/
theorem c6_flat_sprite_not_extruded :
    (pack_run heroFs heroEntries true).toOption.map
        (fun o => o.sprites.map (fun s => (s.key, s.rect.w, s.rect.h, s.extruded))) =
      some [("hero", 32, 32, false)] ∧
    (pack_run heroFs heroEntries true).toOption.map
        (fun o => o.sprites.map (fun s => (s.rect.w, s.rect.h))) ≠
      some [(34, 34)] := by
  constructor
  · decide
  · decide

/-- C6 as amended: the hero scenario produces the sprite keyed `"hero"`
with source size `(32, 32)`, stored un-extruded at `(32, 32)` (only
tileset tiles are extruded), inside an atlas no larger than
2048 x 2048. -/
theorem c6_hero_scenario :
    (pack_run heroFs heroEntries true).toOption.map
        (fun o => o.sprites.map
          (fun s => (s.key, s.rect, s.source_w, s.source_h, s.extruded))) =
      some [("hero", ⟨2, 2, 32, 32⟩, 32, 32, false)] ∧
    (pack_run heroFs heroEntries true).toOption.map
        (fun o => (o.width, o.height)) = some (36, 36) ∧
    (pack_run heroFs heroEntries true).toOption.map
        (fun o => decide (o.width ≤ 2048 ∧ o.height ≤ 2048)) = some true := by
  refine ⟨by decide, by decide, by decide⟩

/-- The path order is total. -/
theorem pathLeB_total : ∀ a b : FsPath, pathLeB a b = true ∨ pathLeB b a = true := by
  intro a
  induction a with
  | nil => intro b; exact Or.inl rfl
  | cons x xs ih =>
    intro b
    cases b with
    | nil => exact Or.inr rfl
    | cons y ys =>
      by_cases h1 : x < y
      · left
        rw [pathLeB, if_pos h1]
      · by_cases h2 : y < x
        · right
          rw [pathLeB, if_pos h2]
        · have hxy : x = y := le_antisymm (not_lt.mp h2) (not_lt.mp h1)
          subst hxy
          rcases ih ys with h | h
          · left
            rw [pathLeB, if_neg h1, if_neg h1]
            exact h
          · right
            rw [pathLeB, if_neg h1, if_neg h1]
            exact h

/-- The path order is transitive. -/
theorem pathLeB_trans : ∀ a b c : FsPath, pathLeB a b = true →
    pathLeB b c = true → pathLeB a c = true := by
  intro a
  induction a with
  | nil => intro b c h1 h2; rfl
  | cons x xs ih =>
    intro b c h1 h2
    cases b with
    | nil => exact absurd h1 (by rw [pathLeB]; simp)
    | cons y ys =>
      cases c with
      | nil => exact absurd h2 (by rw [pathLeB]; simp)
      | cons z zs =>
        rw [pathLeB] at h1 h2 ⊢
        by_cases hxy : x < y
        · by_cases hyz : y < z
          · rw [if_pos (lt_trans hxy hyz)]
          · by_cases hzy : z < y
            · rw [if_neg hyz, if_pos hzy] at h2
              exact absurd h2 (by simp)
            · have : y = z := le_antisymm (not_lt.mp hzy) (not_lt.mp hyz)
              subst this
              rw [if_pos hxy]
        · by_cases hyx : y < x
          · rw [if_neg hxy, if_pos hyx] at h1
            exact absurd h1 (by simp)
          · have hexy : x = y := le_antisymm (not_lt.mp hyx) (not_lt.mp hxy)
            subst hexy
            rw [if_neg hxy, if_neg hxy] at h1
            by_cases hxz : x < z
            · rw [if_pos hxz]
            · by_cases hzx : z < x
              · rw [if_neg hxz, if_pos hzx] at h2
                exact absurd h2 (by simp)
              · have : x = z := le_antisymm (not_lt.mp hzx) (not_lt.mp hxz)
                subst this
                rw [if_neg hxz, if_neg hxz] at h2 ⊢
                exact ih ys zs h1 h2

/-- The path order is antisymmetric. -/
theorem pathLeB_antisymm : ∀ a b : FsPath, pathLeB a b = true →
    pathLeB b a = true → a = b := by
  intro a
  induction a with
  | nil =>
    intro b h1 h2
    cases b with
    | nil => rfl
    | cons y ys => exact absurd h2 (by rw [pathLeB]; simp)
  | cons x xs ih =>
    intro b h1 h2
    cases b with
    | nil => exact absurd h1 (by rw [pathLeB]; simp)
    | cons y ys =>
      rw [pathLeB] at h1 h2
      by_cases hxy : x < y
      · rw [if_neg (asymm hxy), if_pos hxy] at h2
        exact absurd h2 (by simp)
      · by_cases hyx : y < x
        · rw [if_neg hxy, if_pos hyx] at h1
          exact absurd h1 (by simp)
        · have hexy : x = y := le_antisymm (not_lt.mp hyx) (not_lt.mp hxy)
          subst hexy
          rw [if_neg hxy, if_neg hxy] at h1 h2
          rw [ih ys h1 h2]

instance instPathLeTotal : IsTotal FsPath pathLe := ⟨pathLeB_total⟩

instance instPathLeTrans : IsTrans FsPath pathLe := ⟨pathLeB_trans⟩

instance instPathLeAntisymm : IsAntisymm FsPath pathLe := ⟨pathLeB_antisymm⟩

/-- C7: atlas packing is deterministic — any two enumeration orders of the
same directory entries give the same sorted file list, hence identical
atlas pixels and identical sprite tables. -/
theorem c7_pack_deterministic (fs : FsPath → Option Img)
    (e1 e2 : List DirEntry) (dirExists : Bool) (hperm : e1.Perm e2) :
    get_sorted_image_files e1 dirExists = get_sorted_image_files e2 dirExists ∧
    pack_run fs e1 dirExists = pack_run fs e2 dirExists := by
  have hsort : get_sorted_image_files e1 dirExists =
      get_sorted_image_files e2 dirExists := by
    rw [get_sorted_image_files, get_sorted_image_files]
    cases dirExists with
    | false => rfl
    | true =>
      simp only [Bool.not_true, Bool.false_eq_true, if_false]
      apply List.eq_of_perm_of_sorted (r := pathLe)
      · exact (List.perm_insertionSort pathLe _).trans
          ((hperm.filterMap _).trans
            (List.perm_insertionSort pathLe _).symm)
      · exact List.sorted_insertionSort pathLe _
      · exact List.sorted_insertionSort pathLe _
  exact ⟨hsort, by rw [pack_run, pack_run, hsort]⟩

/-- Witness entries for C7, in two enumeration orders. -/
def c7E1 : List DirEntry :=
  [⟨["assets", "images", "a.png"], false, 1⟩,
    ⟨["assets", "images", "b.png"], false, 1⟩]

def c7E2 : List DirEntry :=
  [⟨["assets", "images", "b.png"], false, 1⟩,
    ⟨["assets", "images", "a.png"], false, 1⟩]

/-- Witness for C7: swapping the enumeration order of two concrete entries
changes nothing. -/
theorem c7_pack_deterministic_witness :
    c7E1.Perm c7E2 ∧ pack_run c3Fs c7E1 true = pack_run c3Fs c7E2 true :=
  ⟨by decide, (c7_pack_deterministic c3Fs c7E1 c7E2 true (by decide)).2⟩

/-- C8: on a two-backend desktop platform, with the skip marker absent or
`force_clean` set, the matrix is exactly one task per (module, backend)
pair — `|M| * 2` tasks — and the predicted per-task static-library paths
(module-, OS-, arch-, backend- and profile-named, under the module's
folder) are pairwise distinct, so exactly one artifact per combination. -/
theorem c8_build_matrix (os arch : String) (is_debug clean markerExists : Bool)
    (hos : os = "windows" ∨ os = "macos")
    (harch : arch = "x64" ∨ arch = "arm64")
    (hrun : clean = true ∨ markerExists = false) :
    compile_sokol_tasks os clean markerExists =
      .ok (SOKOL_MODULES.flatMap (fun m =>
        ((sokol_backends os).getD []).map (fun b => (m, b.2.1, b.2.2)))) ∧
    ((sokol_backends os).getD []).length = 2 ∧
    (SOKOL_MODULES.flatMap (fun m =>
      ((sokol_backends os).getD []).map (fun b => (m, b.2.1, b.2.2)))).length =
      SOKOL_MODULES.length * 2 ∧
    (SOKOL_MODULES.flatMap (fun m =>
      ((sokol_backends os).getD []).map (fun b => (m, b.2.1, b.2.2)))).Nodup ∧
    ((SOKOL_MODULES.flatMap (fun m =>
        ((sokol_backends os).getD []).map (fun b => (m, b.2.1, b.2.2)))).map
      (fun t => sokol_artifact os arch t.1 t.2.2
        (profile_suffix is_debug))).Nodup := by
  rcases hos with h | h <;> subst h <;>
    rcases harch with h | h <;> subst h <;>
    cases is_debug <;>
    rcases hrun with h | h <;> subst h
  all_goals first
    | (cases markerExists <;>
        exact ⟨rfl, by decide, by decide, by decide, by decide⟩)
    | (cases clean <;>
        exact ⟨rfl, by decide, by decide, by decide, by decide⟩)

/-- Witness for C8 on Windows, x64, release, clean run. -/
theorem c8_build_matrix_witness :
    compile_sokol_tasks "windows" true false =
      .ok (SOKOL_MODULES.flatMap (fun m =>
        ((sokol_backends "windows").getD []).map (fun b => (m, b.2.1, b.2.2)))) ∧
    (SOKOL_MODULES.flatMap (fun m =>
      ((sokol_backends "windows").getD []).map
        (fun b => (m, b.2.1, b.2.2)))).length = SOKOL_MODULES.length * 2 :=
  ⟨(c8_build_matrix "windows" "x64" false true false (Or.inl rfl)
      (Or.inl rfl) (Or.inl rfl)).1,
    (c8_build_matrix "windows" "x64" false true false (Or.inl rfl)
      (Or.inl rfl) (Or.inl rfl)).2.2.1⟩

/-- Counterexample to C9 as stated: with `python3` present but exiting
non-zero (outcome `exited 1`, not a spawn failure), the source's
`or_else` still runs the alternate interpreter. -/
theorem c9_python_fallback_counterexample :
    RunOutcome.exited 1 ≠ RunOutcome.spawnFail ∧
    (run_py_script (.exited 1) (.exited 0)).2 = ["python3", "python"] ∧
    (run_py_script (.exited 1) (.exited 0)).1 = .ok () := by
  refine ⟨by decide, by decide, rfl⟩

/-- The python3/python fallback behavior of the `.py` branch, as a
reusable fact: the alternate is attempted exactly when the first attempt
did not succeed, and the trace never exceeds the single fallback. -/
theorem run_py_script_fallback (python3 python : RunOutcome) :
    ((run_py_script python3 python).2 = ["python3"] ∨
      (run_py_script python3 python).2 = ["python3", "python"]) ∧
    ((run_py_script python3 python).2 = ["python3", "python"] ↔
      run_with_prefix "python3" python3 ≠ .ok ()) ∧
    (python3 = .spawnFail →
      (run_py_script python3 python).2 = ["python3", "python"]) := by
  rcases python3 with _ | n
  · exact ⟨Or.inr rfl, iff_of_true rfl (fun h => Except.noConfusion h),
      fun _ => rfl⟩
  · cases n with
    | zero =>
      refine ⟨Or.inl rfl, iff_of_false ?_ (fun h => h rfl),
        fun h => RunOutcome.noConfusion h⟩
      intro h
      simp [run_py_script, run_with_prefix] at h
    | succ n2 =>
      exact ⟨Or.inr rfl, iff_of_true rfl (fun h => Except.noConfusion h),
        fun _ => rfl⟩

/-- `run_with_prefix` attempts its command exactly once. -/
theorem run_with_prefix_run_no_retry (cmd : String) (o : RunOutcome) :
    truncation_of (run_with_prefix_run cmd o).2
      (run_with_prefix_run cmd (.exited 0)).2 :=
  ⟨1, rfl⟩

/-- The rust-script runner never re-attempts a command. -/
theorem run_rust_script_no_retry (stem : String) (o1 o2 : RunOutcome) :
    truncation_of (run_rust_script stem o1 o2).2
      (run_rust_script stem (.exited 0) (.exited 0)).2 := by
  rcases o1 with _ | n
  · exact ⟨1, rfl⟩
  · cases n with
    | zero =>
      rcases o2 with _ | m
      · exact ⟨2, rfl⟩
      · cases m with
        | zero => exact ⟨2, rfl⟩
        | succ m2 => exact ⟨2, rfl⟩
    | succ n2 => exact ⟨1, rfl⟩

/-- The utility-dir dispatch never re-attempts a command for any
extension other than `.py`. -/
theorem run_utility_file_no_retry (ext stem : String) (o1 o2 : RunOutcome)
    (hext : ext ≠ "py") :
    truncation_of (run_utility_file ext stem o1 o2).2
      (run_utility_file ext stem (.exited 0) (.exited 0)).2 := by
  rw [run_utility_file, run_utility_file, if_neg hext, if_neg hext]
  by_cases hrs : ext = "rs"
  · rw [if_pos hrs, if_pos hrs]
    exact run_rust_script_no_retry stem o1 o2
  · rw [if_neg hrs, if_neg hrs]
    by_cases hod : ext = "odin"
    · rw [if_pos hod, if_pos hod]
      exact run_with_prefix_run_no_retry "odin" o1
    · rw [if_neg hod, if_neg hod]
      exact ⟨0, rfl⟩

/-- The emsdk shell step runs exactly once. -/
theorem run_in_emsdk_no_retry (shell : String) (o : RunOutcome) :
    truncation_of (run_in_emsdk shell o).2
      (run_in_emsdk shell (.exited 0)).2 := by
  rcases o with _ | n
  · exact ⟨1, rfl⟩
  · cases n with
    | zero => exact ⟨1, rfl⟩
    | succ n2 => exact ⟨1, rfl⟩

/-- Each toolchain probe spawns exactly once. -/
theorem toolchain_check_no_retry (cmd : String) (o : RunOutcome) :
    truncation_of (toolchain_check_run cmd o).2
      (toolchain_check_run cmd (.exited 0)).2 := by
  rcases o with _ | n <;> exact ⟨1, rfl⟩

/-- The MSVC compile/archive task never re-attempts a command. -/
theorem build_windows_no_retry (o1 o2 : RunOutcome) :
    truncation_of (build_windows o1 o2).2
      (build_windows (.exited 0) (.exited 0)).2 := by
  rcases o1 with _ | n
  · exact ⟨1, rfl⟩
  · cases n with
    | zero =>
      rcases o2 with _ | m
      · exact ⟨2, rfl⟩
      · cases m with
        | zero => exact ⟨2, rfl⟩
        | succ m2 => exact ⟨2, rfl⟩
    | succ n2 => exact ⟨1, rfl⟩

/-- The clang/ar task never re-attempts a command. -/
theorem build_unix_no_retry (o1 o2 : RunOutcome) :
    truncation_of (build_unix o1 o2).2
      (build_unix (.exited 0) (.exited 0)).2 := by
  rcases o1 with _ | n
  · exact ⟨1, rfl⟩
  · cases n with
    | zero =>
      rcases o2 with _ | m
      · exact ⟨2, rfl⟩
      · cases m with
        | zero => exact ⟨2, rfl⟩
        | succ m2 => exact ⟨2, rfl⟩
    | succ n2 => exact ⟨1, rfl⟩

/-- The emcc/emar task never re-attempts a command. -/
theorem compile_sokol_wasm_task_no_retry (o1 o2 : RunOutcome) :
    truncation_of (compile_sokol_wasm_task o1 o2).2
      (compile_sokol_wasm_task (.exited 0) (.exited 0)).2 := by
  rcases o1 with _ | n
  · exact ⟨1, rfl⟩
  · cases n with
    | zero =>
      rcases o2 with _ | m
      · exact ⟨2, rfl⟩
      · cases m with
        | zero => exact ⟨2, rfl⟩
        | succ m2 => exact ⟨2, rfl⟩
    | succ n2 => exact ⟨1, rfl⟩

/-- C9 as amended: the `.py` alternate interpreter is attempted exactly
when the `python3` attempt did not succeed — spawn failure or non-zero
exit — bounded by the single ordered fallback; and no other operation in
the pipeline performs an automatic retry: every other external-tool
invocation site (the `run_with_prefix` call sites, rust and odin utility
scripts, the emsdk shell step, the toolchain probes, and the sokol
cl/lib, clang/ar and emcc/emar tasks) runs its commands in a fixed order,
and a failure only cuts the sequence short, never adds an attempt. -/
theorem c9_python_fallback (python3 python o1 o2 : RunOutcome)
    (cmd stem ext shell : String) (hext : ext ≠ "py") :
    ((run_py_script python3 python).2 = ["python3"] ∨
      (run_py_script python3 python).2 = ["python3", "python"]) ∧
    ((run_py_script python3 python).2 = ["python3", "python"] ↔
      run_with_prefix "python3" python3 ≠ .ok ()) ∧
    (python3 = .spawnFail →
      (run_py_script python3 python).2 = ["python3", "python"]) ∧
    truncation_of (run_with_prefix_run cmd o1).2
      (run_with_prefix_run cmd (.exited 0)).2 ∧
    truncation_of (run_rust_script stem o1 o2).2
      (run_rust_script stem (.exited 0) (.exited 0)).2 ∧
    truncation_of (run_utility_file ext stem o1 o2).2
      (run_utility_file ext stem (.exited 0) (.exited 0)).2 ∧
    truncation_of (run_in_emsdk shell o1).2
      (run_in_emsdk shell (.exited 0)).2 ∧
    truncation_of (toolchain_check_run cmd o1).2
      (toolchain_check_run cmd (.exited 0)).2 ∧
    truncation_of (build_windows o1 o2).2
      (build_windows (.exited 0) (.exited 0)).2 ∧
    truncation_of (build_unix o1 o2).2
      (build_unix (.exited 0) (.exited 0)).2 ∧
    truncation_of (compile_sokol_wasm_task o1 o2).2
      (compile_sokol_wasm_task (.exited 0) (.exited 0)).2 :=
  ⟨(run_py_script_fallback python3 python).1,
    (run_py_script_fallback python3 python).2.1,
    (run_py_script_fallback python3 python).2.2,
    run_with_prefix_run_no_retry cmd o1,
    run_rust_script_no_retry stem o1 o2,
    run_utility_file_no_retry ext stem o1 o2 hext,
    run_in_emsdk_no_retry shell o1,
    toolchain_check_no_retry cmd o1,
    build_windows_no_retry o1 o2,
    build_unix_no_retry o1 o2,
    compile_sokol_wasm_task_no_retry o1 o2⟩

/-- Witness for C9 as amended: with `python3` absent the fallback runs,
and a failing odin utility script adds no second attempt. -/
theorem c9_python_fallback_witness :
    (run_py_script .spawnFail (.exited 0)).2 = ["python3", "python"] ∧
    truncation_of (run_utility_file "odin" "gen" (.exited 1) (.exited 0)).2
      (run_utility_file "odin" "gen" (.exited 0) (.exited 0)).2 :=
  ⟨(c9_python_fallback .spawnFail (.exited 0) (.exited 1) (.exited 0)
      "odin" "gen" "odin" "bash" (by decide)).2.2.1 rfl,
    (c9_python_fallback .spawnFail (.exited 0) (.exited 1) (.exited 0)
      "odin" "gen" "odin" "bash" (by decide)).2.2.2.2.2.1⟩

/-- C10: whenever `pack_atlas` returns an error — an image failed to load,
or a sprite or tile did not fit — the disk is left exactly as it was: the
atlas image is exported and saved only after every input has been packed. -/
theorem c10_error_leaves_disk (verbose : Bool) (entries : List DirEntry)
    (dirExists : Bool) (fs : FsPath → Option Img) (now : Nat) (disk : Disk)
    (e : CustomError)
    (herr : (pack_atlas verbose entries dirExists fs now disk).1 = .error e) :
    (pack_atlas verbose entries dirExists fs now disk).2 = disk := by
  rw [pack_atlas] at herr ⊢
  by_cases hskip :
      (!should_repack entries dirExists (disk.atlas.map (fun a => a.1)) &&
        verbose) = true
  · rw [if_pos hskip] at herr
    exact Except.noConfusion herr
  · rw [if_neg hskip] at herr ⊢
    cases hpr : pack_run fs entries dirExists with
    | error e2 => rfl
    | ok out =>
      rw [hpr] at herr
      exact Except.noConfusion herr

/-- Disk state for the C10 witness: an atlas already on disk. -/
def c10Disk : Disk := ⟨some (10, ⟨0, 0, ⟨0, 0, fun _ _ => 0⟩, []⟩), none⟩

/-- Filesystem for the C10 witness: every image fails to decode. -/
def c10Fs : FsPath → Option Img := fun _ => none

/-- Witness for C10: a failing image load aborts the pack and leaves the
existing atlas file untouched. -/
theorem c10_error_leaves_disk_witness :
    (pack_atlas false heroEntries true c10Fs 20 c10Disk).1 =
      .error (.validationError "Failed to load hero.png") ∧
    (pack_atlas false heroEntries true c10Fs 20 c10Disk).2 = c10Disk :=
  ⟨rfl,
    c10_error_leaves_disk false heroEntries true c10Fs 20 c10Disk
      (.validationError "Failed to load hero.png") rfl⟩

/-- Filesystem for the C2 failing input. -/
def c2Fs : FsPath → Option Img := fun p =>
  if p = ["assets", "images", "hero.png"] then some ⟨32, 32, fun _ _ => 0⟩
  else none

/-- Walk entries for the C2 failing input: one sprite older than the
atlas. -/
def c2Entries : List DirEntry := [⟨["assets", "images", "hero.png"], false, 5⟩]

/-- Prior disk state for the C2 failing input: an up-to-date atlas written
at time 10 (its stored output has width 0 as a sentinel). -/
def c2Disk : Disk := ⟨some (10, ⟨0, 0, ⟨0, 0, fun _ _ => 0⟩, []⟩), none⟩

/-- C2 fails on the code: the source's guard at `src/packer.rs:46` is
`!should_repack(..)? && ui.verbose`, so the up-to-date short-circuit fires
only in verbose mode.  Here the atlas is up to date (`should_repack` is
false); with `verbose = true` the disk is untouched, but with
`verbose = false` the pack runs anyway and rewrites the atlas file (new
modified-time 20, new width 36), contradicting the claim that freshness
alone suffices to skip. -/
theorem c2_skip_requires_verbose :
    should_repack c2Entries true (c2Disk.atlas.map (fun a => a.1)) = false ∧
    (pack_atlas true c2Entries true c2Fs 20 c2Disk).2.atlas.map
      (fun a => (a.1, a.2.width)) = some (10, 0) ∧
    (pack_atlas false c2Entries true c2Fs 20 c2Disk).2.atlas.map
      (fun a => (a.1, a.2.width)) = some (20, 36) ∧
    (pack_atlas false c2Entries true c2Fs 20 c2Disk).1 = .ok () := by
  refine ⟨by decide, by decide, by decide, rfl⟩

end Bonsai